import Mathlib

/-!
Verification development for the trackingVechile event-replay engine.

The embedding follows the first (guard-complete) variant of each source file:
* `src/api/mockEventStream.js` — class `MockEventStreamAPI`
* `src/utils/dataLoader.js` — `calculateTripMetrics`
* `src/utils/simulationEngine.js` — class `SimulationEngine`

Modelling conventions:
* A JavaScript timestamp is the result of `new Date(s).getTime()`.  We represent
  it as `Option Int`: `some t` is a finite millisecond instant, `none` models the
  `NaN` produced when the string fails to parse.  Every comparison involving
  `NaN` is `false` in JavaScript, and the embedding reproduces that case by case.
* Other JavaScript numbers are rationals (`ℚ`).  The source never produces
  `NaN`/`Infinity` on those paths that the claims touch; where `Infinity`
  sentinels occur (running min/max during indexing, `Math.min`/`Math.max`
  folds), they are modelled explicitly (`Option Int` accumulators, `JsTime`).
* `Date.now()` is passed in explicitly as a `now` argument wherever the source
  reads the wall clock.
* Listeners are identified by natural numbers; emission returns the list of
  listener identities invoked (each invocation is try/catch-isolated in the
  source, which does not affect which listeners run).
-/

/-- Model of `Math.round` on a rational: round half away from zero is JavaScript's
`Math.round(x) = ⌊x + 0.5⌋` (round half toward +∞). -/
def mathRound (q : ℚ) : ℤ := ⌊q + 1/2⌋

/-- One telemetry record, with its timestamp already parsed
(`new Date(e.timestamp).getTime()`; `none` = `NaN`).  `payload` stands for the
free-form fields that pass through unmodified (open schema) and makes distinct
source events distinguishable. -/
structure Movement where
  speed_kmh : Option ℚ
  moving : Option Bool
deriving Repr, DecidableEq

structure Event where
  timestamp : Option Int
  event_type : String
  tripId : String
  movement : Option Movement
  planned_distance_km : Option ℚ
  estimated_duration_hours : Option ℚ
  distance_travelled_km : Option ℚ
  location : Option (ℚ × ℚ)
  payload : Nat
deriving Repr, DecidableEq

/-- A minimal event: only the parsed timestamp and a payload tag are set. -/
def mkEvent (t : Option Int) (ty : String) (p : Nat) : Event :=
  { timestamp := t, event_type := ty, tripId := "", movement := none,
    planned_distance_km := none, estimated_duration_hours := none,
    distance_travelled_km := none, location := none, payload := p }

/-- The per-trip value of the constructor input `tripsData`: the source accepts
a raw array (`Array.isArray(tripData)`), a `{events: [...]}` wrapper, or
anything else (which contributes no events). -/
inductive TripData where
  | arr (events : List Event)
  | wrapped (events : List Event)
  | other
deriving Repr, DecidableEq

/-- The per-trip unwrapping of `_indexEvents`: raw arrays and `{events: [...]}`
wrappers are both accepted; anything else yields `[]`. -/
def extractEvents : TripData → List Event
  | .arr es => es
  | .wrapped es => es
  | .other => []

/-- Comparator model of `allEvents.sort((a, b) => timeA - timeB)`: keep `a`
before `b` when the comparator does not order `b` strictly first.  When either
parsed time is `NaN` the comparator returns `NaN`, which the engine's stable
sort treats as "do not swap"; hence `true` on those cases. -/
def jsSortLe (a b : Event) : Bool :=
  match a.timestamp, b.timestamp with
  | some x, some y => decide (x ≤ y)
  | _, _ => true

/-- Stable insertion used to model `Array.prototype.sort` (stable per the
ECMAScript specification): a new element goes after every already-placed
element that the comparator keeps before it. -/
def insertSorted (le : α → α → Bool) (a : α) : List α → List α
  | [] => [a]
  | b :: bs => if le b a then b :: insertSorted le a bs else a :: b :: bs

/-- Stable sort by a boolean comparator (left fold of stable insertions). -/
def stableSortBy (le : α → α → Bool) (l : List α) : List α :=
  l.foldl (fun acc x => insertSorted le x acc) []

/-- Mutable state of one `MockEventStreamAPI` instance
(`src/api/mockEventStream.js`).  `streamFrameId` bookkeeping for
`requestAnimationFrame` is not represented; scheduling is driven by explicit
step calls. -/
structure StreamState where
  allEvents : List Event
  eventsByTrip : List (String × List Event)
  minTimestamp : Int
  maxTimestamp : Int
  totalDuration : Int
  speedMultiplier : ℚ
  isStreaming : Bool
  currentTime : ℚ
  startTime : ℚ
  lastTimestamp : Int
  eventListeners : List Nat
  completeListeners : List Nat
deriving Repr, DecidableEq

/-- Accumulator of `_indexEvents`: the combined list, the per-trip map and the
running min/max.  `none` models the `Infinity` / `-Infinity` sentinels the
source starts from (an invalid timestamp, `NaN`, never updates either bound
because every `NaN` comparison is false). -/
structure IndexAcc where
  allEvents : List Event
  eventsByTrip : List (String × List Event)
  minAcc : Option Int
  maxAcc : Option Int
deriving Repr, DecidableEq

/-- Set a key of the per-trip object (`this.eventsByTrip[tripId] = ...`):
overwrite an existing binding, otherwise append. -/
def assocSet (m : List (String × List Event)) (k : String) (v : List Event) :
    List (String × List Event) :=
  match m with
  | [] => [(k, v)]
  | (k', v') :: rest => if k' = k then (k, v) :: rest else (k', v') :: assocSet rest k v

/-- Running-minimum step `if (timestamp < this.minTimestamp) this.minTimestamp = timestamp` with the
running bound starting at `Infinity`; a `NaN` timestamp never passes the test. -/
def minStep (acc : Option Int) (t : Option Int) : Option Int :=
  match t with
  | some x => match acc with
    | some m => if x < m then some x else some m
    | none => some x
  | none => acc

/-- Running max, starting from `-Infinity`. -/
def maxStep (acc : Option Int) (t : Option Int) : Option Int :=
  match t with
  | some x => match acc with
    | some m => if m < x then some x else some m
    | none => some x
  | none => acc

/-- One iteration of the outer `Object.entries(this.tripsData).forEach` of
`_indexEvents`: unwrap the trip's events, append them to the combined list and
to the (freshly assigned) per-trip entry, and fold each event's parsed
timestamp into the running min/max. -/
def ingestTrip (acc : IndexAcc) (entry : String × TripData) : IndexAcc :=
  let evs := extractEvents entry.2
  { allEvents := acc.allEvents ++ evs
    eventsByTrip := assocSet acc.eventsByTrip entry.1 evs
    minAcc := evs.foldl (fun a e => minStep a e.timestamp) acc.minAcc
    maxAcc := evs.foldl (fun a e => maxStep a e.timestamp) acc.maxAcc }

/-- Constructor `new MockEventStreamAPI(tripsData, speedMultiplier)` followed by
`_indexEvents()`: builds the index, sorts the combined list by parsed
timestamp, and replaces an untouched `Infinity` / `-Infinity` bound by `0`
(the `isFinite` guards).  `now` stands for the constructor's `Date.now()`. -/
def mkStream (tripsData : List (String × TripData)) (speedMultiplier : ℚ) (now : ℚ) :
    StreamState :=
  let acc := tripsData.foldl ingestTrip ⟨[], [], none, none⟩
  let minT := acc.minAcc.getD 0
  let maxT := acc.maxAcc.getD 0
  { allEvents := stableSortBy jsSortLe acc.allEvents
    eventsByTrip := acc.eventsByTrip
    minTimestamp := minT
    maxTimestamp := maxT
    totalDuration := maxT - minT
    speedMultiplier := speedMultiplier
    isStreaming := false
    currentTime := 0
    startTime := now
    lastTimestamp := 0
    eventListeners := []
    completeListeners := [] }

/-- Query `_getEventsUpToTime(relativeTime)`: all indexed events whose parsed
timestamp is `≤ minTimestamp + relativeTime`; an unparsable timestamp (`NaN`)
never satisfies the comparison. -/
def getEventsUpToTime (relativeTime : ℚ) (s : StreamState) : List Event :=
  let targetTime : ℚ := (s.minTimestamp : ℚ) + relativeTime
  s.allEvents.filter (fun e =>
    match e.timestamp with
    | some t => decide ((t : ℚ) ≤ targetTime)
    | none => false)

/-- The emission pass of `_streamEvents`: walk `eventsUpToNow` in order,
emitting each event whose time is strictly above the running `lastTimestamp`
and advancing `lastTimestamp` to that time immediately.  Returns the emitted
events and the final `lastTimestamp`. -/
def emitNewEvents : Int → List Event → List Event × Int
  | last, [] => ([], last)
  | last, e :: rest =>
    match e.timestamp with
    | some t =>
      if last < t then
        let r := emitNewEvents t rest
        (e :: r.1, r.2)
      else emitNewEvents last rest
    | none => emitNewEvents last rest

/-- Method `stopStream()`: clears the streaming flag (and cancels the pending frame,
which is not represented). -/
def stopStream (s : StreamState) : StreamState :=
  { s with isStreaming := false }

/-- One pass of `_streamEvents()` at wall-clock instant `now`.  Returns the
events emitted on this pass, whether the completion notification fired, and the
updated state.  The trailing `requestAnimationFrame` self-scheduling is the
caller's business (driven here by explicit successive calls). -/
def streamEventsStep (now : ℚ) (s : StreamState) : List Event × Bool × StreamState :=
  if ¬ s.isStreaming then ([], false, s)
  else
    let currentTime := (now - s.startTime) * s.speedMultiplier
    let s1 := { s with currentTime := currentTime }
    let upTo := getEventsUpToTime currentTime s1
    let er := emitNewEvents s.lastTimestamp upTo
    let s2 := { s1 with lastTimestamp := er.2 }
    match upTo.getLast? with
    | some lastEv =>
      match lastEv.timestamp with
      | some lt =>
        if s.maxTimestamp ≤ lt then (er.1, true, stopStream s2)
        else (er.1, false, s2)
      | none => (er.1, false, s2)
    | none => (er.1, false, s2)

/-- Method `startStream()`: no-op when already streaming; otherwise set the flag,
anchor `startTime = Date.now() - currentTime / speedMultiplier`, and run the
first `_streamEvents()` pass synchronously. -/
def startStream (now : ℚ) (s : StreamState) : List Event × Bool × StreamState :=
  if s.isStreaming then ([], false, s)
  else streamEventsStep now
    { s with isStreaming := true, startTime := now - s.currentTime / s.speedMultiplier }

/-- Method `setSpeedMultiplier(multiplier)` of `MockEventStreamAPI`: assign
unconditionally; while streaming, re-anchor `startTime`. -/
def setSpeedMultiplier (multiplier : ℚ) (now : ℚ) (s : StreamState) : StreamState :=
  let s' := { s with speedMultiplier := multiplier }
  if s'.isStreaming then { s' with startTime := now - s'.currentTime / multiplier }
  else s'

/-- Method `seekToProgress(progress)`: silently return on out-of-range input; on a
non-positive (or non-finite) `totalDuration` zero the position; otherwise set
`currentTime = totalDuration * progress`, clear `lastTimestamp`, and re-anchor
when streaming. -/
def seekToProgress (progress : ℚ) (now : ℚ) (s : StreamState) : StreamState :=
  if progress < 0 ∨ 1 < progress then s
  else if s.totalDuration ≤ 0 then { s with currentTime := 0, lastTimestamp := 0 }
  else
    let s' := { s with currentTime := (s.totalDuration : ℚ) * progress, lastTimestamp := 0 }
    if s'.isStreaming then { s' with startTime := now - s'.currentTime / s'.speedMultiplier }
    else s'

/-- Method `getProgress()`: returns `0` when `totalDuration` is `0`, otherwise
`min(currentTime / totalDuration, 1)`. -/
def getProgress (s : StreamState) : ℚ :=
  if s.totalDuration = 0 then 0
  else min (s.currentTime / (s.totalDuration : ℚ)) 1

/-- Method `reset()`: stop streaming, zero `currentTime` and `lastTimestamp`, restamp
`startTime = Date.now()`.  The listener arrays are untouched. -/
def resetStream (now : ℚ) (s : StreamState) : StreamState :=
  { stopStream s with currentTime := 0, lastTimestamp := 0, startTime := now }

/-- Method `onEvent(listener)`: append the listener to the event-listener array
(the returned unsubscribe closure is not needed by the claims). -/
def onEvent (listener : Nat) (s : StreamState) : StreamState :=
  { s with eventListeners := s.eventListeners ++ [listener] }

/-- Emission `_emitEvent` invokes every registered event listener in registration order
(each call individually try/catch-guarded); this is the invocation list. -/
def emitEventListeners (s : StreamState) : List Nat := s.eventListeners

/-- Run a sequence of `_streamEvents` passes at the given wall-clock instants;
`true` iff the completion notification fired on any of them. -/
def runTicks (s : StreamState) : List ℚ → Bool
  | [] => false
  | now :: rest =>
    let r := streamEventsStep now s
    r.2.1 || runTicks r.2.2 rest

/-- Result record of `calculateTripMetrics` (`src/utils/dataLoader.js`).
Timestamps carried through verbatim by the source (`startTime`, `endTime`,
`lastUpdate`, the entries of `speedEvents`/`locations`) are represented by
their parsed instants. -/
structure TripMetrics where
  totalDistance : ℚ
  totalEvents : Nat
  startTime : Option Int
  endTime : Option Int
  plannedDistance : ℚ
  estimatedDuration : ℚ
  status : String
  maxSpeed : ℚ
  averageSpeed : ℚ
  stops : Nat
  lastLocation : Option (ℚ × ℚ)
  lastUpdate : Option Int
  speedEvents : List (Option Int × ℚ)
  locations : List (Option Int × Option (ℚ × ℚ) × Option ℚ)
  completionPercentage : ℤ
  elapsedHours : ℚ
deriving Repr, DecidableEq

/-- The early-return record for `!events || events.length === 0` (that object
carries no `elapsedHours` field; reading it yields `undefined`, rendered `0`
here — no claim touches it). -/
def emptyTripMetrics : TripMetrics :=
  { totalDistance := 0, totalEvents := 0, startTime := none, endTime := none,
    plannedDistance := 0, estimatedDuration := 0, status := "idle",
    maxSpeed := 0, averageSpeed := 0, stops := 0, lastLocation := none,
    lastUpdate := none, speedEvents := [], locations := [],
    completionPercentage := 0, elapsedHours := 0 }

/-- Accumulator of the `locationEvents.forEach` loop computing max/average
speed and the stop count. -/
structure SpeedAcc where
  maxSpeed : ℚ
  totalSpeedSum : ℚ
  speedCount : Nat
  stops : Nat
  lastMoving : Bool
deriving Repr, DecidableEq

/-- One pass of that loop.  `if (event.movement?.speed_kmh)` is a truthiness
test: the speed contributes only when present and nonzero.
`!event.movement?.moving` is true unless `moving` is literally `true`, and
`event.movement?.moving ?? true` defaults a missing flag to `true`. -/
def speedStep (acc : SpeedAcc) (e : Event) : SpeedAcc :=
  let mv := e.movement.bind (fun m => m.speed_kmh)
  let acc1 :=
    match mv with
    | some v =>
      if v ≠ 0 then
        { acc with maxSpeed := max acc.maxSpeed v,
                   totalSpeedSum := acc.totalSpeedSum + v,
                   speedCount := acc.speedCount + 1 }
      else acc
    | none => acc
  let movingOpt := e.movement.bind (fun m => m.moving)
  let acc2 :=
    if movingOpt ≠ some true ∧ acc1.lastMoving then { acc1 with stops := acc1.stops + 1 }
    else acc1
  { acc2 with lastMoving := movingOpt.getD true }

/-- Predicate of `events.find(e => e.event_type === 'trip_completed' ||
e.event_type === 'trip_cancelled')`. -/
def isTerminalEvent (e : Event) : Bool :=
  e.event_type = "trip_completed" || e.event_type = "trip_cancelled"

/-- Function `calculateTripMetrics(events)` from `src/utils/dataLoader.js`, first
variant.  `x || 0` fallbacks become `Option.getD 0` (exact here: a present
numeric `0` is falsy and also yields `0`, and `ℚ` has no `NaN`).
`elapsedHours` with an unparsable timestamp would be `NaN` in the source;
it is rendered `0` (no claim depends on it). -/
def calculateTripMetrics (events : List Event) : TripMetrics :=
  if events.isEmpty then emptyTripMetrics
  else
    let startEvent := events.find? (fun e => e.event_type = "trip_started")
    let locationEvents := events.filter (fun e => e.event_type = "location_ping")
    let lastLocationEvent := locationEvents.getLast?
    let endEvent := events.find? isTerminalEvent
    let sacc := locationEvents.foldl speedStep ⟨0, 0, 0, 0, true⟩
    let plannedDistance := (startEvent.bind (fun e => e.planned_distance_km)).getD 0
    let estimatedDuration := (startEvent.bind (fun e => e.estimated_duration_hours)).getD 0
    let currentDistance := (lastLocationEvent.bind (fun e => e.distance_travelled_km)).getD 0
    let completionPercentage : ℤ :=
      if 0 < plannedDistance then mathRound (currentDistance / plannedDistance * 100) else 0
    let status :=
      match endEvent with
      | some e =>
        if e.event_type = "trip_completed" then "completed"
        else if e.event_type = "trip_cancelled" then "cancelled"
        else if locationEvents.isEmpty then "idle" else "in_progress"
      | none => if locationEvents.isEmpty then "idle" else "in_progress"
    { totalDistance := (mathRound (currentDistance * 10) : ℚ) / 10
      totalEvents := events.length
      startTime := startEvent.bind (fun e => e.timestamp)
      endTime := ((endEvent.bind (fun e => e.timestamp)).or
        (lastLocationEvent.bind (fun e => e.timestamp)))
      plannedDistance := plannedDistance
      estimatedDuration := estimatedDuration
      status := status
      maxSpeed := (mathRound (sacc.maxSpeed * 10) : ℚ) / 10
      averageSpeed :=
        if 0 < sacc.speedCount then
          (mathRound (sacc.totalSpeedSum / (sacc.speedCount : ℚ) * 10) : ℚ) / 10
        else 0
      stops := sacc.stops
      lastLocation := lastLocationEvent.bind (fun e => e.location)
      lastUpdate := lastLocationEvent.bind (fun e => e.timestamp)
      speedEvents := locationEvents.map (fun e =>
        (e.timestamp, (e.movement.bind (fun m => m.speed_kmh)).getD 0))
      locations := locationEvents.map (fun e =>
        (e.timestamp, e.location, e.distance_travelled_km))
      completionPercentage := completionPercentage
      elapsedHours :=
        match startEvent, lastLocationEvent with
        | some se, some le =>
          match le.timestamp, se.timestamp with
          | some lt, some st => ((lt - st : ℤ) : ℚ) / (1000 * 60 * 60)
          | _, _ => 0
        | _, _ => 0 }

/-- JavaScript number as it flows through `SimulationEngine`'s
`Math.min`/`Math.max` folds: `NaN`, the two infinities, or a finite instant. -/
inductive JsTime where
  | nan
  | posInf
  | negInf
  | fin (t : Int)
deriving Repr, DecidableEq

/-- Model of `Math.min`: `NaN` poisons, otherwise the usual order with infinities. -/
def jsMin : JsTime → JsTime → JsTime
  | .nan, _ => .nan
  | _, .nan => .nan
  | .negInf, _ => .negInf
  | _, .negInf => .negInf
  | .posInf, b => b
  | a, .posInf => a
  | .fin a, .fin b => .fin (min a b)

/-- Model of `Math.max`: `NaN` poisons, otherwise the usual order with infinities. -/
def jsMax : JsTime → JsTime → JsTime
  | .nan, _ => .nan
  | _, .nan => .nan
  | .posInf, _ => .posInf
  | _, .posInf => .posInf
  | .negInf, b => b
  | a, .negInf => a
  | .fin a, .fin b => .fin (max a b)

/-- JavaScript `>` on these values: any comparison with `NaN` is `false`. -/
def jsGtJ : JsTime → JsTime → Bool
  | .nan, _ => false
  | _, .nan => false
  | .posInf, .posInf => false
  | .posInf, _ => true
  | _, .posInf => false
  | .negInf, _ => false
  | .fin _, .negInf => true
  | .fin a, .fin b => decide (b < a)

/-- The parsed event time as a `SimulationEngine` number. -/
def parseTime (e : Event) : JsTime :=
  match e.timestamp with
  | some t => .fin t
  | none => .nan

/-- A trip handed to `SimulationEngine`; `events := none` models an object
without an `events` field (`if (trip.events)` guards). -/
structure Trip where
  id : String
  events : Option (List Event)
deriving Repr, DecidableEq

/-- State of one `SimulationEngine` (`src/utils/simulationEngine.js`).
`simulationTime = none` is the constructor's `null`. -/
structure SimEngine where
  trips : List Trip
  speedMultiplier : ℚ
  isRunning : Bool
  simulationTime : Option JsTime
  processedEvents : List (String × List Nat)
deriving Repr, DecidableEq

/-- Method `getEarliestTimestamp()`: fold `Math.min` over every trip with a nonempty
`events` array (spread `Math.min(...)` starts from `Infinity`), defaulting to
`Date.now()` (the `now` argument) when no trip contributed. -/
def getEarliestTimestamp (now : Int) (trips : List Trip) : JsTime :=
  let earliest := trips.foldl (fun acc trip =>
    match trip.events with
    | some evs =>
      if 0 < evs.length then
        jsMin acc (evs.foldl (fun a e => jsMin a (parseTime e)) JsTime.posInf)
      else acc
    | none => acc) JsTime.posInf
  if earliest = JsTime.posInf then JsTime.fin now else earliest

/-- Method `getLatestTimestamp()`: the running bound starts at `0` and folds
`Math.max` (spread `Math.max(...)` starts from `-Infinity`). -/
def getLatestTimestamp (trips : List Trip) : JsTime :=
  trips.foldl (fun acc trip =>
    match trip.events with
    | some evs =>
      if 0 < evs.length then
        jsMax acc (evs.foldl (fun a e => jsMax a (parseTime e)) JsTime.negInf)
      else acc
    | none => acc) (JsTime.fin 0)

/-- Method `SimulationEngine.setSpeedMultiplier(multiplier)`:
`this.speedMultiplier = Math.max(0.1, multiplier)` — a silent clamp. -/
def simSetSpeedMultiplier (multiplier : ℚ) (e : SimEngine) : SimEngine :=
  { e with speedMultiplier := max (1/10) multiplier }

/-- Apply a function to the value stored under a key (no-op on a missing key;
the engine populates an entry per trip before any seek). -/
def assocMap (m : List (String × List Nat)) (k : String) (f : List Nat → List Nat) :
    List (String × List Nat) :=
  m.map (fun p => if p.1 = k then (p.1, f p.2) else p)

/-- Method `SimulationEngine.seekToTime(timestamp)`: clamp the target into
`[getEarliestTimestamp(), getLatestTimestamp()]`, store it, then delete from
each trip's processed-index set every index whose event time is strictly after
the new simulation time. -/
def seekToTime (timestamp : Int) (now : Int) (e : SimEngine) : SimEngine :=
  let st := jsMax (getEarliestTimestamp now e.trips)
    (jsMin (.fin timestamp) (getLatestTimestamp e.trips))
  { e with
    simulationTime := some st
    processedEvents := e.trips.foldl (fun m trip =>
      match trip.events with
      | some evs =>
        assocMap m trip.id (fun idxs => idxs.filter (fun i =>
          match evs[i]? with
          | some ev => ¬ jsGtJ (parseTime ev) st
          | none => true))
      | none => m) e.processedEvents }

/-- Lookup for `eventsForTrip`-style access to the per-trip index:
`this.eventsByTrip[tripId]` (first binding wins; keys are unique in a
JavaScript object). -/
def assocLookup (m : List (String × List Event)) (k : String) : Option (List Event) :=
  match m with
  | [] => none
  | (k', v) :: rest => if k' = k then some v else assocLookup rest k

def eventsForTrip (s : StreamState) (tid : String) : Option (List Event) :=
  assocLookup s.eventsByTrip tid

theorem mem_insertSorted (le : α → α → Bool) (x a : α) (l : List α) :
    a ∈ insertSorted le x l ↔ a = x ∨ a ∈ l := by
  induction l with
  | nil => simp [insertSorted]
  | cons b bs ih =>
    simp only [insertSorted]
    split
    · simp only [List.mem_cons, ih]
      tauto
    · simp only [List.mem_cons]

theorem mem_foldl_insertSorted (le : α → α → Bool) (a : α) (l : List α) (acc : List α) :
    a ∈ l.foldl (fun acc x => insertSorted le x acc) acc ↔ a ∈ acc ∨ a ∈ l := by
  induction l generalizing acc with
  | nil => simp
  | cons b bs ih =>
    simp only [List.foldl_cons, ih, mem_insertSorted, List.mem_cons]
    tauto

theorem mem_stableSortBy (le : α → α → Bool) (a : α) (l : List α) :
    a ∈ stableSortBy le l ↔ a ∈ l := by
  unfold stableSortBy
  rw [mem_foldl_insertSorted]
  simp

theorem streamEventsStep_eventsByTrip (now : ℚ) (s : StreamState) :
    (streamEventsStep now s).2.2.eventsByTrip = s.eventsByTrip := by
  unfold streamEventsStep
  repeat first | rfl | split | dsimp only

theorem streamEventsStep_listeners (now : ℚ) (s : StreamState) :
    (streamEventsStep now s).2.2.eventListeners = s.eventListeners ∧
    (streamEventsStep now s).2.2.completeListeners = s.completeListeners := by
  constructor <;>
  · unfold streamEventsStep
    repeat first | rfl | split | dsimp only

theorem streamEventsStep_allEvents (now : ℚ) (s : StreamState) :
    (streamEventsStep now s).2.2.allEvents = s.allEvents := by
  unfold streamEventsStep
  repeat first | rfl | split | dsimp only

theorem startStream_listeners (now : ℚ) (s : StreamState) :
    (startStream now s).2.2.eventListeners = s.eventListeners ∧
    (startStream now s).2.2.completeListeners = s.completeListeners := by
  unfold startStream
  split
  · exact ⟨rfl, rfl⟩
  · exact ⟨(streamEventsStep_listeners now _).1, (streamEventsStep_listeners now _).2⟩

/-- An engine with no trips and nothing processed, used as a concrete instance. -/
def simIdle : SimEngine :=
  { trips := [], speedMultiplier := 1, isRunning := false,
    simulationTime := none, processedEvents := [] }

/-- C4 counterexample: the claim says a non-positive argument to
`setSpeedMultiplier` is rejected with no state mutation and an explicit
failure signal.  In fact `MockEventStreamAPI.setSpeedMultiplier(-2)` simply
stores `-2` (state mutated, nothing signalled), and
`SimulationEngine.setSpeedMultiplier(-2)` silently clamps to `0.1`. -/
theorem C4_counterexample :
    (-2 : ℚ) ≤ 0 ∧
    (setSpeedMultiplier (-2) 0 (mkStream [] 1 0)).speedMultiplier = -2 ∧
    (mkStream [] 1 0).speedMultiplier = 1 ∧
    (simSetSpeedMultiplier (-2) simIdle).speedMultiplier = 1/10 := by
  refine ⟨by norm_num, rfl, rfl, ?_⟩
  simp only [simSetSpeedMultiplier]
  norm_num [max_def]

/-- C4 amended: `MockEventStreamAPI.setSpeedMultiplier` accepts and stores any
value, positive or not, mutating the engine state and signalling nothing (on a
non-streaming engine the only change is the stored multiplier);
`SimulationEngine.setSpeedMultiplier` silently clamps its argument to a floor
of `0.1`.  Neither rejects non-positive input. -/
theorem C4_amended_theorem (m now : ℚ) (s : StreamState) (e : SimEngine) :
    (setSpeedMultiplier m now s).speedMultiplier = m ∧
    setSpeedMultiplier m now { s with isStreaming := false } =
      { s with isStreaming := false, speedMultiplier := m } ∧
    (simSetSpeedMultiplier m e).speedMultiplier = max (1/10) m := by
  refine ⟨?_, rfl, rfl⟩
  unfold setSpeedMultiplier
  dsimp only
  split <;> rfl

def pingEventA : Event := mkEvent (some 100) "location_ping" 10

def pingEventB : Event := mkEvent (some 200) "location_ping" 11

/-- A concrete engine mid-replay over one trip with events at `t=100` and
`t=200` (so `progress > 1` corresponds to a target time past `200`). -/
def seekEngine : SimEngine :=
  { trips := [{ id := "A", events := some [pingEventA, pingEventB] }],
    speedMultiplier := 1, isRunning := false,
    simulationTime := some (JsTime.fin 150), processedEvents := [("A", [0])] }

/-- C5 counterexample: the claim says an out-of-range seek is rejected with no
state mutation.  `SimulationEngine.seekToTime(500)` — a target past the end of
the timeline, i.e. `progress > 1` — silently clamps to the latest timestamp
`200` and overwrites `simulationTime` (previously `150`): state is mutated
and the clamp is exactly what the claim rules out. -/
theorem C5_counterexample :
    (seekToTime 500 0 seekEngine).simulationTime = some (JsTime.fin 200) ∧
    seekEngine.simulationTime = some (JsTime.fin 150) ∧
    JsTime.fin 500 ≠ JsTime.fin 200 := by
  exact ⟨rfl, rfl, by decide⟩

/-- C5 amended: `MockEventStreamAPI.seekToProgress` with progress outside
`[0,1]` is a silent no-op — no state is mutated, but no failure signal is
produced either (the method returns nothing in either case);
`SimulationEngine.seekToTime` instead silently clamps any target into
`[getEarliestTimestamp(), getLatestTimestamp()]` and stores it. -/
theorem C5_amended_theorem (p now : ℚ) (s : StreamState) (h : p < 0 ∨ 1 < p) :
    seekToProgress p now s = s ∧
    ∀ (t nw : Int) (e : SimEngine),
      (seekToTime t nw e).simulationTime =
        some (jsMax (getEarliestTimestamp nw e.trips)
          (jsMin (JsTime.fin t) (getLatestTimestamp e.trips))) := by
  constructor
  · unfold seekToProgress
    rw [if_pos h]
  · intro t nw e
    rfl

theorem C5_amended_witness :
    ((2 : ℚ) < 0 ∨ 1 < (2 : ℚ)) ∧ seekToProgress 2 0 (mkStream [] 1 0) = mkStream [] 1 0 :=
  ⟨Or.inr one_lt_two,
    (C5_amended_theorem 2 0 (mkStream [] 1 0) (Or.inr one_lt_two)).1⟩

theorem seekToProgress_fields (p now : ℚ) (s : StreamState) (h : ¬ (p < 0 ∨ 1 < p)) :
    (seekToProgress p now s).totalDuration = s.totalDuration ∧
    (seekToProgress p now s).currentTime =
      (if s.totalDuration ≤ 0 then 0 else (s.totalDuration : ℚ) * p) := by
  unfold seekToProgress
  rw [if_neg h]
  by_cases hd : s.totalDuration ≤ 0
  · rw [if_pos hd, if_pos hd]
    exact ⟨rfl, rfl⟩
  · rw [if_neg hd, if_neg hd]
    constructor
    · dsimp only
      split <;> rfl
    · dsimp only
      split <;> rfl

/-- C8: seeking to `p ∈ [0,1]` and immediately reading `progress()` returns
`p` exactly (the arithmetic is exact over ℚ) whenever the timeline has
positive duration, and returns `0` when `totalDuration ≤ 0` — matching the
separate specification that `progress()` is `0` on a zero-duration dataset. -/
theorem C8_seek_then_progress (p now : ℚ) (s : StreamState) (h0 : 0 ≤ p) (h1 : p ≤ 1) :
    getProgress (seekToProgress p now s) = if 0 < s.totalDuration then p else 0 := by
  have hnot : ¬ (p < 0 ∨ 1 < p) := by
    push_neg
    exact ⟨h0, h1⟩
  obtain ⟨hTD, hCT⟩ := seekToProgress_fields p now s hnot
  unfold getProgress
  rw [hTD, hCT]
  by_cases hd : s.totalDuration ≤ 0
  · rw [if_pos hd, if_neg (not_lt.mpr hd)]
    by_cases hz : s.totalDuration = 0
    · rw [if_pos hz]
    · rw [if_neg hz]
      simp [zero_div]
  · have hpos : 0 < s.totalDuration := lt_of_not_le hd
    have hz : s.totalDuration ≠ 0 := by omega
    have hzq : (s.totalDuration : ℚ) ≠ 0 := Int.cast_ne_zero.mpr hz
    rw [if_neg hd, if_neg hz, if_pos hpos]
    rw [mul_div_cancel_left₀ _ hzq]
    exact min_eq_left h1

def demoEventA : Event := mkEvent (some 0) "location_ping" 20

def demoEventB : Event := mkEvent (some 10) "location_ping" 21

def demoTrips : List (String × TripData) := [("A", TripData.arr [demoEventA, demoEventB])]

theorem C8_seek_then_progress_witness :
    (0 : ℚ) ≤ 1 ∧ (1 : ℚ) ≤ 1 ∧
    getProgress (seekToProgress 1 0 (mkStream demoTrips 1 0)) =
      if 0 < (mkStream demoTrips 1 0).totalDuration then (1 : ℚ) else 0 :=
  ⟨zero_le_one, le_refl 1,
    C8_seek_then_progress 1 0 (mkStream demoTrips 1 0) zero_le_one (le_refl 1)⟩

/-- C10: `reset()` stops streaming and zeroes `currentTime` and
`lastTimestamp`, while leaving both listener collections untouched, so every
listener registered before the reset is still the exact invocation list used
by emissions after a subsequent `startStream()`. -/
theorem C10_reset_preserves_listeners (now1 now2 : ℚ) (s : StreamState) :
    (resetStream now1 s).isStreaming = false ∧
    (resetStream now1 s).currentTime = 0 ∧
    (resetStream now1 s).lastTimestamp = 0 ∧
    (resetStream now1 s).eventListeners = s.eventListeners ∧
    (resetStream now1 s).completeListeners = s.completeListeners ∧
    emitEventListeners (startStream now2 (resetStream now1 s)).2.2 = s.eventListeners ∧
    (startStream now2 (resetStream now1 s)).2.2.completeListeners = s.completeListeners := by
  refine ⟨rfl, rfl, rfl, rfl, rfl, ?_, ?_⟩
  · exact (startStream_listeners now2 (resetStream now1 s)).1
  · exact (startStream_listeners now2 (resetStream now1 s)).2

def evCompleted : Event := mkEvent (some 10) "trip_completed" 30

def evCancelled : Event := mkEvent (some 20) "trip_cancelled" 31

/-- C3 counterexample: the claim gives `trip_cancelled` priority over
`trip_completed`.  On an input containing a `trip_completed` event followed by
a `trip_cancelled` event, `calculateTripMetrics` reports `"completed"` (the
source takes the **first** terminal event in input order via `events.find`),
even though a `trip_cancelled` event is present. -/
theorem C3_counterexample :
    (calculateTripMetrics [evCompleted, evCancelled]).status = "completed" ∧
    evCancelled ∈ [evCompleted, evCancelled] ∧
    evCancelled.event_type = "trip_cancelled" ∧
    "completed" ≠ "cancelled" := by
  refine ⟨?_, by simp, rfl, by decide⟩
  rfl

/-- C3 amended: the status is decided by the **first** event of type
`trip_completed` or `trip_cancelled` in input order — `"completed"` or
`"cancelled"` respectively, with no cancelled-first priority; when no terminal
event exists the status is `"idle"` when there are no `location_ping` events
(a `trip_started` event alone does not make the trip active) and
`"in_progress"` (not `"active"`) otherwise. -/
theorem C3_amended_theorem (events : List Event) :
    (calculateTripMetrics events).status =
      match events.find? isTerminalEvent with
      | some e => if e.event_type = "trip_completed" then "completed" else "cancelled"
      | none =>
        if (events.filter (fun e => e.event_type = "location_ping")).isEmpty then "idle"
        else "in_progress" := by
  by_cases h : events.isEmpty
  · have he : events = [] := by
      cases events with
      | nil => rfl
      | cons a l => simp [List.isEmpty] at h
    subst he
    rfl
  · unfold calculateTripMetrics
    rw [if_neg h]
    dsimp only
    cases hE : events.find? isTerminalEvent with
    | none => rfl
    | some e =>
      dsimp only
      have ht := List.find?_some hE
      simp only [isTerminalEvent, Bool.or_eq_true, decide_eq_true_eq] at ht
      by_cases hc : e.event_type = "trip_completed"
      · rw [if_pos hc]
        rw [if_pos hc]
      · rw [if_neg hc]
        have hx : e.event_type = "trip_cancelled" := ht.resolve_left hc
        rw [if_pos hx]
        rw [if_neg hc]

def startNoPlan : Event := mkEvent (some 0) "trip_started" 40

def pingNoDistance : Event := mkEvent (some 5) "location_ping" 41

def overStart : Event :=
  { mkEvent (some 0) "trip_started" 42 with planned_distance_km := some 1 }

def overPing : Event :=
  { mkEvent (some 5) "location_ping" 43 with distance_travelled_km := some 2 }

/-- C7 counterexample: the claim requires the event-count fallback
`round(positionEventCount / totalEventCount * 100)` when no planned distance
is known.  For an active trip of one `trip_started` (no planned distance) and
one `location_ping`, the claim demands `round(1/2*100) = 50`, but
`calculateTripMetrics` returns `0` (its fallback is the constant `0`). -/
theorem C7_counterexample :
    (calculateTripMetrics [startNoPlan, pingNoDistance]).completionPercentage = 0 ∧
    mathRound ((1 : ℚ) / 2 * 100) = 50 ∧
    (0 : ℤ) ≠ 50 := by
  refine ⟨?_, ?_, by decide⟩
  · rfl
  · norm_num [mathRound]

/-- C7 amended: `completionPercentage` is
`round(currentDistance / plannedDistance * 100)` when the planned distance is
positive and the constant `0` otherwise — there is no event-count fallback —
and the value is not clamped to `[0, 100]`: with planned distance `1` and
travelled distance `2` the function returns `200`. -/
theorem C7_amended_theorem (events : List Event) :
    ((calculateTripMetrics events).completionPercentage =
      if events.isEmpty then 0
      else
        if 0 < (((events.find? (fun e => e.event_type = "trip_started")).bind
            (fun e => e.planned_distance_km)).getD 0 : ℚ) then
          mathRound (((((events.filter
                (fun e => e.event_type = "location_ping")).getLast?).bind
              (fun e => e.distance_travelled_km)).getD 0) /
            (((events.find? (fun e => e.event_type = "trip_started")).bind
              (fun e => e.planned_distance_km)).getD 0) * 100)
        else 0) ∧
    (calculateTripMetrics [overStart, overPing]).completionPercentage = 200 := by
  constructor
  · by_cases h : events.isEmpty
    · unfold calculateTripMetrics
      rw [if_pos h, if_pos h]
      rfl
    · unfold calculateTripMetrics
      rw [if_neg h, if_neg h]
  · norm_num [calculateTripMetrics, overStart, overPing, mkEvent, mathRound,
      List.getLast?_cons_cons]

def tieEventA : Event := mkEvent (some 1000) "location_ping" 50

def tieEventB : Event := mkEvent (some 1000) "location_ping" 51

def tieTrips : List (String × TripData) := [("A", TripData.arr [tieEventA, tieEventB])]

/-- C1: evaluation of the tick at the failing input.  Two events of one trip
share timestamp `1000`; on the first streaming pass both are inside the cutoff
(`minTimestamp + simulatedElapsed = 1000`) and both exceed the initial
`lastTimestamp = 0`, so the claim requires both to be emitted.  The code emits
only the first: it advances `lastTimestamp` to `1000` *before* testing the
second tied event, whose `1000 > 1000` check then fails, and the stream
completes with the second event permanently unemitted. -/
theorem C1_tied_events_dropped :
    (startStream 0 (mkStream tieTrips 1 0)).1 = [tieEventA] ∧
    tieEventB ∈ getEventsUpToTime 0 (mkStream tieTrips 1 0) ∧
    tieEventB ∉ (startStream 0 (mkStream tieTrips 1 0)).1 ∧
    (startStream 0 (mkStream tieTrips 1 0)).2.1 = true ∧
    (startStream 0 (mkStream tieTrips 1 0)).2.2.lastTimestamp = 1000 := by
  refine ⟨?_, ?_, ?_, ?_, ?_⟩ <;>
    norm_num [startStream, streamEventsStep, getEventsUpToTime, emitNewEvents,
      mkStream, ingestTrip, stableSortBy, insertSorted, jsSortLe, extractEvents,
      assocSet, minStep, maxStep, stopStream, tieTrips, tieEventA, tieEventB,
      mkEvent, List.getLast?_cons_cons]

/-- C2 counterexample: on the empty dataset the bounds and duration are the
specified zeroes, but starting playback does **not** immediately reach
completion: the first streaming pass emits nothing, fires no completion
notification (`eventsUpToNow.length > 0` is required for the completion
check), and leaves the engine still streaming — it reschedules forever. -/
theorem C2_counterexample :
    (mkStream [] 1 0).minTimestamp = 0 ∧
    (mkStream [] 1 0).maxTimestamp = 0 ∧
    (mkStream [] 1 0).totalDuration = 0 ∧
    (startStream 0 (mkStream [] 1 0)).2.1 = false ∧
    (startStream 0 (mkStream [] 1 0)).2.2.isStreaming = true := by
  refine ⟨rfl, rfl, rfl, ?_, ?_⟩ <;>
    norm_num [startStream, streamEventsStep, getEventsUpToTime, mkStream,
      stableSortBy, emitNewEvents, stopStream]

theorem streamEventsStep_empty (now : ℚ) (s : StreamState) (h : s.allEvents = []) :
    (streamEventsStep now s).1 = [] ∧ (streamEventsStep now s).2.1 = false ∧
    (streamEventsStep now s).2.2.allEvents = [] := by
  unfold streamEventsStep
  split
  · exact ⟨rfl, rfl, h⟩
  · simp [getEventsUpToTime, h, emitNewEvents]

theorem runTicks_empty (ticks : List ℚ) (s : StreamState) (h : s.allEvents = []) :
    runTicks s ticks = false := by
  induction ticks generalizing s with
  | nil => rfl
  | cons t ts ih =>
    unfold runTicks
    dsimp only
    rw [(streamEventsStep_empty t s h).2.1,
      ih _ (streamEventsStep_empty t s h).2.2]
    rfl

theorem startStream_empty (now : ℚ) (s : StreamState) (h : s.allEvents = []) :
    (startStream now s).1 = [] ∧ (startStream now s).2.1 = false ∧
    (startStream now s).2.2.allEvents = [] := by
  unfold startStream
  split
  · exact ⟨rfl, rfl, h⟩
  · exact streamEventsStep_empty now _ h

theorem foldl_ingestTrip_empty (td : List (String × TripData)) (acc : IndexAcc)
    (hE : ∀ entry ∈ td, extractEvents entry.2 = []) :
    (td.foldl ingestTrip acc).allEvents = acc.allEvents ∧
    (td.foldl ingestTrip acc).minAcc = acc.minAcc ∧
    (td.foldl ingestTrip acc).maxAcc = acc.maxAcc := by
  induction td generalizing acc with
  | nil => exact ⟨rfl, rfl, rfl⟩
  | cons a rest ih =>
    have ha : extractEvents a.2 = [] := hE a (by simp)
    have hrest : ∀ entry ∈ rest, extractEvents entry.2 = [] :=
      fun x hx => hE x (by simp [hx])
    have hstep : (ingestTrip acc a).allEvents = acc.allEvents ∧
        (ingestTrip acc a).minAcc = acc.minAcc ∧
        (ingestTrip acc a).maxAcc = acc.maxAcc := by
      refine ⟨?_, ?_, ?_⟩ <;> simp [ingestTrip, ha]
    rw [List.foldl_cons]
    obtain ⟨ih1, ih2, ih3⟩ := ih (ingestTrip acc a) hrest
    exact ⟨ih1.trans hstep.1, ih2.trans hstep.2.1, ih3.trans hstep.2.2⟩

/-- C2 amended: on a dataset with zero trips or zero events,
`minTimestamp = maxTimestamp = 0` and `totalDuration = 0`, every query returns
an empty or zero result without error — but starting playback **never**
reaches completion: the completion notification never fires on any sequence of
streaming passes, because the completion check requires a nonempty batch of
revealed events. -/
theorem C2_amended_theorem (td : List (String × TripData)) (sp now now2 r : ℚ)
    (ticks : List ℚ) (hE : ∀ entry ∈ td, extractEvents entry.2 = []) :
    (mkStream td sp now).minTimestamp = 0 ∧
    (mkStream td sp now).maxTimestamp = 0 ∧
    (mkStream td sp now).totalDuration = 0 ∧
    (mkStream td sp now).allEvents = [] ∧
    getEventsUpToTime r (mkStream td sp now) = [] ∧
    getProgress (mkStream td sp now) = 0 ∧
    (startStream now2 (mkStream td sp now)).1 = [] ∧
    (startStream now2 (mkStream td sp now)).2.1 = false ∧
    runTicks (startStream now2 (mkStream td sp now)).2.2 ticks = false := by
  obtain ⟨hA, hMin, hMax⟩ := foldl_ingestTrip_empty td ⟨[], [], none, none⟩ hE
  have hAll : (mkStream td sp now).allEvents = [] := by
    simp [mkStream, hA, stableSortBy]
  have hMin0 : (mkStream td sp now).minTimestamp = 0 := by
    simp [mkStream, hMin]
  have hMax0 : (mkStream td sp now).maxTimestamp = 0 := by
    simp [mkStream, hMax]
  have hTd : (mkStream td sp now).totalDuration = 0 := by
    simp [mkStream, hMin, hMax]
  refine ⟨hMin0, hMax0, hTd, hAll, ?_, ?_,
    (startStream_empty now2 _ hAll).1, (startStream_empty now2 _ hAll).2.1,
    runTicks_empty ticks _ (startStream_empty now2 _ hAll).2.2⟩
  · simp [getEventsUpToTime, hAll]
  · simp [getProgress, hTd]

theorem C2_amended_witness :
    (∀ entry ∈ [("A", TripData.arr ([] : List Event))], extractEvents entry.2 = []) ∧
    (mkStream [("A", TripData.arr [])] 1 0).minTimestamp = 0 ∧
    (mkStream [("A", TripData.arr [])] 1 0).maxTimestamp = 0 ∧
    (mkStream [("A", TripData.arr [])] 1 0).totalDuration = 0 ∧
    (mkStream [("A", TripData.arr [])] 1 0).allEvents = [] ∧
    getEventsUpToTime 0 (mkStream [("A", TripData.arr [])] 1 0) = [] ∧
    getProgress (mkStream [("A", TripData.arr [])] 1 0) = 0 ∧
    (startStream 0 (mkStream [("A", TripData.arr [])] 1 0)).1 = [] ∧
    (startStream 0 (mkStream [("A", TripData.arr [])] 1 0)).2.1 = false ∧
    runTicks (startStream 0 (mkStream [("A", TripData.arr [])] 1 0)).2.2 [0] = false := by
  have hE : ∀ entry ∈ [("A", TripData.arr ([] : List Event))], extractEvents entry.2 = [] := by
    intro entry h
    rw [List.mem_singleton] at h
    subst h
    rfl
  exact ⟨hE, C2_amended_theorem [("A", TripData.arr [])] 1 0 0 0 [0] hE⟩

def badEvent : Event := mkEvent none "location_ping" 60

def badTrips : List (String × TripData) := [("A", TripData.arr [badEvent])]

/-- C6 counterexample: the claim says an event whose timestamp fails to parse
is excluded from the index.  Indexing a single event with an unparsable
timestamp (`new Date(...).getTime()` = `NaN`, modelled `none`) keeps the event
in both the combined list and its trip's list — it is **not** excluded (only
the min/max tracking ignores it, leaving the `0` defaults), and no
data-quality warning exists anywhere in `_indexEvents`. -/
theorem C6_counterexample :
    badEvent ∈ (mkStream badTrips 1 0).allEvents ∧
    eventsForTrip (mkStream badTrips 1 0) "A" = some [badEvent] ∧
    (mkStream badTrips 1 0).minTimestamp = 0 ∧
    (mkStream badTrips 1 0).maxTimestamp = 0 := by
  refine ⟨?_, rfl, rfl, rfl⟩
  simp [mkStream, ingestTrip, stableSortBy, insertSorted, badTrips,
    extractEvents, assocSet, minStep, maxStep]

theorem mem_foldl_ingestTrip (td : List (String × TripData)) (acc : IndexAcc)
    (e : Event) (h : e ∈ acc.allEvents) : e ∈ (td.foldl ingestTrip acc).allEvents := by
  induction td generalizing acc with
  | nil => exact h
  | cons a rest ih =>
    rw [List.foldl_cons]
    exact ih _ (by simp only [ingestTrip]; exact List.mem_append_left _ h)

theorem mem_foldl_ingestTrip_of_mem (td : List (String × TripData)) (acc : IndexAcc)
    (tid : String) (tdata : TripData) (e : Event)
    (hmem : (tid, tdata) ∈ td) (he : e ∈ extractEvents tdata) :
    e ∈ (td.foldl ingestTrip acc).allEvents := by
  induction td generalizing acc with
  | nil => cases hmem
  | cons a rest ih =>
    rw [List.foldl_cons]
    rcases List.mem_cons.mp hmem with h1 | h2
    · subst h1
      exact mem_foldl_ingestTrip rest _ e
        (by simp only [ingestTrip]; exact List.mem_append_right _ he)
    · exact ih _ h2

/-- C6 amended: indexing never excludes an event: every event of every trip —
whether or not its timestamp parses — ends up in the combined sorted index
(and, per the per-trip identity of the index, in its trip's list); an
unparsable timestamp is only ignored by the min/max-range tracking, no warning
is recorded, and indexing of the remaining events continues. -/
theorem C6_amended_theorem (td : List (String × TripData)) (sp now : ℚ)
    (tid : String) (tdata : TripData) (e : Event)
    (hmem : (tid, tdata) ∈ td) (he : e ∈ extractEvents tdata) :
    e ∈ (mkStream td sp now).allEvents := by
  have h : e ∈ (td.foldl ingestTrip ⟨[], [], none, none⟩).allEvents :=
    mem_foldl_ingestTrip_of_mem td _ tid tdata e hmem he
  simpa [mkStream, mem_stableSortBy] using h

theorem C6_amended_witness :
    ("A", TripData.arr [badEvent]) ∈ badTrips ∧
    badEvent ∈ extractEvents (TripData.arr [badEvent]) ∧
    badEvent ∈ (mkStream badTrips 1 0).allEvents :=
  ⟨by simp [badTrips], by simp [extractEvents],
    C6_amended_theorem badTrips 1 0 "A" (TripData.arr [badEvent]) badEvent
      (by simp [badTrips]) (by simp [extractEvents])⟩

theorem assocLookup_assocSet_self (m : List (String × List Event)) (k : String)
    (v : List Event) : assocLookup (assocSet m k v) k = some v := by
  induction m with
  | nil => simp [assocSet, assocLookup]
  | cons p rest ih =>
    unfold assocSet
    split
    · unfold assocLookup
      simp
    · unfold assocLookup
      rename_i hne
      rw [if_neg hne]
      exact ih

theorem assocLookup_assocSet_ne (m : List (String × List Event)) (k k' : String)
    (v : List Event) (h : k' ≠ k) :
    assocLookup (assocSet m k' v) k = assocLookup m k := by
  induction m with
  | nil => simp [assocSet, assocLookup, h]
  | cons p rest ih =>
    unfold assocSet
    split
    · rename_i heq
      unfold assocLookup
      rw [if_neg h, if_neg (heq ▸ h)]
    · unfold assocLookup
      split
      · rfl
      · exact ih

theorem eventsByTrip_foldl (td : List (String × TripData)) (acc : IndexAcc) :
    (td.foldl ingestTrip acc).eventsByTrip =
      td.foldl (fun m p => assocSet m p.1 (extractEvents p.2)) acc.eventsByTrip := by
  induction td generalizing acc with
  | nil => rfl
  | cons a rest ih =>
    rw [List.foldl_cons, List.foldl_cons, ih]
    rfl

theorem assocLookup_foldl_not_mem (td : List (String × TripData))
    (m : List (String × List Event)) (tid : String)
    (h : tid ∉ td.map Prod.fst) :
    assocLookup (td.foldl (fun m p => assocSet m p.1 (extractEvents p.2)) m) tid =
      assocLookup m tid := by
  induction td generalizing m with
  | nil => rfl
  | cons a rest ih =>
    rw [List.foldl_cons]
    have h1 : a.1 ≠ tid := by
      intro hh
      exact h (by simp [hh])
    rw [ih _ (fun hm => h (by simp [hm]))]
    exact assocLookup_assocSet_ne m tid a.1 _ h1

theorem assocLookup_build (td : List (String × TripData))
    (m : List (String × List Event)) (tid : String) (tdata : TripData)
    (hnd : (td.map Prod.fst).Nodup) (hmem : (tid, tdata) ∈ td) :
    assocLookup (td.foldl (fun m p => assocSet m p.1 (extractEvents p.2)) m) tid =
      some (extractEvents tdata) := by
  induction td generalizing m with
  | nil => cases hmem
  | cons a rest ih =>
    rw [List.foldl_cons]
    rcases List.mem_cons.mp hmem with h1 | h2
    · subst h1
      have hnd' := hnd
      rw [List.map_cons] at hnd'
      have hnot : tid ∉ rest.map Prod.fst := (List.nodup_cons.mp hnd').1
      rw [assocLookup_foldl_not_mem rest _ tid hnot]
      exact assocLookup_assocSet_self m tid _
    · have hnd' := hnd
      rw [List.map_cons] at hnd'
      exact ih _ (List.nodup_cons.mp hnd').2 h2

/-- C9: after index construction the per-trip list exposed for a trip is
exactly that trip's input event sequence, in original order (no sorting or
filtering is ever applied to it; in particular it is ascending by timestamp
only if the caller supplied it so); and every engine operation — seek, speed
change, reset, stop, listener registration, a streaming pass, stream start —
leaves the per-trip map unchanged. -/
theorem C9_per_trip_lists (td : List (String × TripData)) (sp now : ℚ)
    (tid : String) (tdata : TripData)
    (hnd : (td.map Prod.fst).Nodup) (hmem : (tid, tdata) ∈ td) :
    eventsForTrip (mkStream td sp now) tid = some (extractEvents tdata) ∧
    ∀ (s : StreamState) (p m nw : ℚ) (l : Nat),
      (seekToProgress p nw s).eventsByTrip = s.eventsByTrip ∧
      (setSpeedMultiplier m nw s).eventsByTrip = s.eventsByTrip ∧
      (resetStream nw s).eventsByTrip = s.eventsByTrip ∧
      (stopStream s).eventsByTrip = s.eventsByTrip ∧
      (onEvent l s).eventsByTrip = s.eventsByTrip ∧
      (streamEventsStep nw s).2.2.eventsByTrip = s.eventsByTrip ∧
      (startStream nw s).2.2.eventsByTrip = s.eventsByTrip := by
  constructor
  · unfold eventsForTrip
    have hby : (mkStream td sp now).eventsByTrip =
        (td.foldl ingestTrip ⟨[], [], none, none⟩).eventsByTrip := rfl
    rw [hby, eventsByTrip_foldl]
    exact assocLookup_build td _ tid tdata hnd hmem
  · intro s p m nw l
    refine ⟨?_, ?_, rfl, rfl, rfl, streamEventsStep_eventsByTrip nw s, ?_⟩
    · unfold seekToProgress
      repeat first | rfl | split | dsimp only
    · unfold setSpeedMultiplier
      dsimp only
      split <;> rfl
    · unfold startStream
      split
      · rfl
      · exact streamEventsStep_eventsByTrip nw _

theorem C9_per_trip_lists_witness :
    ((demoTrips.map Prod.fst).Nodup) ∧
    ("A", TripData.arr [demoEventA, demoEventB]) ∈ demoTrips ∧
    eventsForTrip (mkStream demoTrips 1 0) "A" =
      some (extractEvents (TripData.arr [demoEventA, demoEventB])) :=
  ⟨by simp [demoTrips], by simp [demoTrips],
    (C9_per_trip_lists demoTrips 1 0 "A" (TripData.arr [demoEventA, demoEventB])
      (by simp [demoTrips]) (by simp [demoTrips])).1⟩
